import Mathlib

/-!
Shallow embedding of the `Whisp` Solidity contract
(src/packages/hardhat/deploy/004_deploy_arkanon.ts, the embedded
`contract Whisp`): group registry and anonymous-signal validation.

Modelling conventions:
* `uint256` values (registry ids, group ids, nullifiers, commitments,
  addresses) are `Nat`; the `uint64(block.timestamp)` cast is an explicit
  `% 2 ^ 64`.
* Solidity mappings are total functions with the zero value as default,
  exactly as EVM storage behaves.
* Each external contract function is a Lean function from the pre-state and
  call arguments to `(post-state, Except error result)`.  The post-state is
  the storage at the moment the function finishes or hits its first failing
  `require`/external revert; since the contract is checked-then-act, no
  error path has mutated anything by then (this is proved, not assumed:
  the EVM's rollback-on-revert is *not* baked into the model).
* The result of a success carries the function's declared Solidity return
  values (`createGroup` returns the `uint256 registryId`; `joinGroup` and
  `validateSignal` declare no return values, modelled as an empty list of
  ABI return words) together with the list of emitted events.
* Calls into the external Semaphore contract are oracle inputs: the value
  `semaphore.createGroup()` returns, and whether `addMember` /
  `validateProof` succeed, are parameters of the step; a reverting external
  call aborts the Whisp function at that point.
* `keccak256` is an oracle as well: an arbitrary function from byte strings
  to `Nat` whose output is a 256-bit word (`< 2 ^ 256`).  Every fact proved
  below holds for every such function, hence for the real keccak256.
-/

/-- One entry of `mapping(uint256 => GroupInfo) groups` (struct `GroupInfo`
of the Whisp contract). -/
structure GroupInfo where
  groupId : Nat
  creator : Nat
  createdAt : Nat
  «exists» : Bool
  name : String
  description : String
  imageUrl : String
  category : String
deriving Repr, DecidableEq

/-- The zero value of `GroupInfo`, which EVM storage yields for a never
written mapping key. -/
def defaultGroupInfo : GroupInfo :=
  { groupId := 0, creator := 0, createdAt := 0, «exists» := false
    name := "", description := "", imageUrl := "", category := "" }

/-- Modelled from the spec: the `ISemaphore.SemaphoreProof` struct lives in
`contracts/interfaces/ISemaphore.sol`, which is not among the provided
sources; per the spec a proof carries at minimum a nullifier (large
integer), message bytes, scope bytes, and scheme-specific fields (the
proof points), all forwarded opaquely by this core. Bytes are lists of
`Nat` (each intended `< 256`; no fact below depends on that bound). -/
structure SemaphoreProof where
  merkleTreeDepth : Nat
  merkleTreeRoot : Nat
  nullifier : Nat
  message : List Nat
  scope : List Nat
  points : List Nat
deriving Repr, DecidableEq

/-- The keccak256 oracle: any function producing a 256-bit word from a byte
string. The contract applies it via `keccak256(abi.encodePacked(...))`;
`abi.encodePacked` of a single byte-string argument is the identity on the
bytes. -/
structure Keccak where
  hash : List Nat → Nat
  hash_lt : ∀ bs, hash bs < 2 ^ 256

/-- The events the Whisp contract declares: `GroupCreated`, `MemberJoined`,
`SignalSent`, with their exact field lists. -/
inductive Event where
  | groupCreated (registryId groupId creator : Nat)
      (name description imageUrl category : String) (createdAt : Nat)
  | memberJoined (registryId groupId member commitment joinedAt : Nat)
  | signalSent (registryId groupId signalHash scopeHash nullifier timestamp : Nat)
deriving Repr, DecidableEq

/-- The distinguishable failure kinds of the contract: the three `require`
messages ("Group not found", "Already joined", "Nullifier already used")
plus the revert of a call into the external Semaphore contract. -/
inductive WhispError where
  | groupNotFound
  | alreadyJoined
  | nullifierAlreadyUsed
  | upstreamFailure
deriving Repr, DecidableEq

/-- The storage of the Whisp contract: `nextGroupIndex`, `groups`,
`hasJoined`, `nullifierUsed`. -/
structure WhispState where
  nextGroupIndex : Nat
  groups : Nat → GroupInfo
  hasJoined : Nat → Nat → Bool
  nullifierUsed : Nat → Nat → Bool

/-- Contract storage right after the constructor: counter 0 and all
mappings at their zero values. -/
def initialState : WhispState :=
  { nextGroupIndex := 0
    groups := fun _ => defaultGroupInfo
    hasJoined := fun _ _ => false
    nullifierUsed := fun _ _ => false }

/-- `Whisp.createGroup(name, description, imageUrl, category)`.
`msgSender` is `msg.sender`, `timestamp` is `block.timestamp`, and
`semResult` is the oracle outcome of the external
`semaphore.createGroup()` call (`none` = that call reverted, aborting the
whole function before any local mutation). On success returns the
assigned `registryId` and the emitted `GroupCreated` event. -/
def createGroup (s : WhispState) (msgSender : Nat)
    (name description imageUrl category : String) (timestamp : Nat)
    (semResult : Option Nat) :
    WhispState × Except WhispError (Nat × List Event) :=
  match semResult with
  | none => (s, .error .upstreamFailure)
  | some groupId =>
      let registryId := s.nextGroupIndex
      let ts := timestamp % 2 ^ 64
      let g : GroupInfo :=
        { groupId := groupId, creator := msgSender, createdAt := ts
          «exists» := true, name := name, description := description
          imageUrl := imageUrl, category := category }
      let s' : WhispState :=
        { s with
          nextGroupIndex := s.nextGroupIndex + 1
          groups := fun r => if r = registryId then g else s.groups r }
      (s', .ok (registryId,
        [.groupCreated registryId groupId msgSender name description
          imageUrl category ts]))

/-- `Whisp.joinGroup(registryId, identityCommitment)`. `addMemberOk` is the
oracle outcome of the external `semaphore.addMember` call (`false` = it
reverted, aborting the function between the two requires' checks and the
`hasJoined` write). On success returns the (empty) list of declared
return values and the emitted `MemberJoined` event. -/
def joinGroup (s : WhispState) (registryId identityCommitment msgSender timestamp : Nat)
    (addMemberOk : Bool) :
    WhispState × Except WhispError (List Nat × List Event) :=
  let g := s.groups registryId
  if g.«exists» = false then (s, .error .groupNotFound)
  else if s.hasJoined registryId msgSender = true then (s, .error .alreadyJoined)
  else if addMemberOk = false then (s, .error .upstreamFailure)
  else
    let s' : WhispState :=
      { s with
        hasJoined := fun r a =>
          if r = registryId ∧ a = msgSender then true else s.hasJoined r a }
    (s', .ok ([],
      [.memberJoined registryId g.groupId msgSender identityCommitment
        (timestamp % 2 ^ 64)]))

/-- `Whisp.validateSignal(registryId, proof)`. `proofOk` is the oracle
outcome of the external `semaphore.validateProof` call (`false` = it
reverted, aborting the function before the `nullifierUsed` write). On
success returns the (empty) list of declared return values and the
emitted `SignalSent` event, whose `signalHash`/`scopeHash` are
`uint256(keccak256(abi.encodePacked(message))) >> 8` and likewise for the
scope. -/
def validateSignal (K : Keccak) (s : WhispState) (registryId : Nat)
    (proof : SemaphoreProof) (timestamp : Nat) (proofOk : Bool) :
    WhispState × Except WhispError (List Nat × List Event) :=
  let g := s.groups registryId
  if g.«exists» = false then (s, .error .groupNotFound)
  else if s.nullifierUsed registryId proof.nullifier = true then
    (s, .error .nullifierAlreadyUsed)
  else if proofOk = false then (s, .error .upstreamFailure)
  else
    let s' : WhispState :=
      { s with
        nullifierUsed := fun r n =>
          if r = registryId ∧ n = proof.nullifier then true
          else s.nullifierUsed r n }
    let signalHash := K.hash proof.message / 2 ^ 8
    let scopeHash := K.hash proof.scope / 2 ^ 8
    (s', .ok ([],
      [.signalSent registryId g.groupId signalHash scopeHash proof.nullifier
        (timestamp % 2 ^ 64)]))

/-- `Whisp.isMember(registryId, user)`: pure read of `hasJoined`. -/
def isMember (s : WhispState) (registryId user : Nat) : Bool :=
  s.hasJoined registryId user

/-- `Whisp.getGroupInfo(registryId)`: pure read of `groups`; total, no
failure path. -/
def getGroupInfo (s : WhispState) (registryId : Nat) : GroupInfo :=
  s.groups registryId

/-- The states reachable from the freshly constructed contract by any
sequence of external calls, with arbitrary arguments and arbitrary oracle
outcomes for the Semaphore calls (each step keeps the post-state whether
the call succeeded or reverted; a reverted call's post-state is provably
the pre-state). -/
inductive Reachable : WhispState → Prop where
  | init : Reachable initialState
  | step_create {s} (a : Nat) (nm d iu c : String) (t : Nat) (sr : Option Nat) :
      Reachable s → Reachable (createGroup s a nm d iu c t sr).1
  | step_join {s} (r cm a t : Nat) (ok : Bool) :
      Reachable s → Reachable (joinGroup s r cm a t ok).1
  | step_validate {s} (K : Keccak) (r : Nat) (p : SemaphoreProof) (t : Nat)
      (ok : Bool) : Reachable s → Reachable (validateSignal K s r p t ok).1

/-! ## Characterization lemmas for the three mutating entry points -/

theorem joinGroup_notFound {s : WhispState} {r : Nat}
    (hex : (s.groups r).«exists» = false) (cm a t : Nat) (ok : Bool) :
    joinGroup s r cm a t ok = (s, .error .groupNotFound) := by
  simp [joinGroup, hex]

theorem joinGroup_already {s : WhispState} {r a : Nat}
    (hex : (s.groups r).«exists» = true) (hj : s.hasJoined r a = true)
    (cm t : Nat) (ok : Bool) :
    joinGroup s r cm a t ok = (s, .error .alreadyJoined) := by
  simp [joinGroup, hex, hj]

theorem joinGroup_ok {s : WhispState} {r a : Nat}
    (hex : (s.groups r).«exists» = true) (hj : s.hasJoined r a = false)
    (cm t : Nat) :
    joinGroup s r cm a t true =
      ({ s with hasJoined := fun r0 a0 =>
          if r0 = r ∧ a0 = a then true else s.hasJoined r0 a0 },
       .ok ([], [.memberJoined r (s.groups r).groupId a cm (t % 2 ^ 64)])) := by
  simp [joinGroup, hex, hj]

theorem joinGroup_ok_inv {s : WhispState} {r cm a t : Nat} {ok : Bool}
    {out : List Nat × List Event}
    (h : (joinGroup s r cm a t ok).2 = .ok out) :
    (s.groups r).«exists» = true ∧ s.hasJoined r a = false ∧ ok = true := by
  by_cases hex : (s.groups r).«exists» = true
  · by_cases hj : s.hasJoined r a = true
    · rw [joinGroup_already hex hj] at h; exact absurd h (by simp)
    · cases ok with
      | false => simp [joinGroup, hex, Bool.eq_false_iff.mpr hj] at h
      | true => exact ⟨hex, Bool.eq_false_iff.mpr hj, rfl⟩
  · rw [joinGroup_notFound (Bool.eq_false_iff.mpr hex)] at h
    exact absurd h (by simp)

theorem validateSignal_notFound (K : Keccak) {s : WhispState} {r : Nat}
    (hex : (s.groups r).«exists» = false) (p : SemaphoreProof) (t : Nat)
    (ok : Bool) :
    validateSignal K s r p t ok = (s, .error .groupNotFound) := by
  simp [validateSignal, hex]

theorem validateSignal_reused (K : Keccak) {s : WhispState} {r : Nat}
    {p : SemaphoreProof} (hex : (s.groups r).«exists» = true)
    (hn : s.nullifierUsed r p.nullifier = true) (t : Nat) (ok : Bool) :
    validateSignal K s r p t ok = (s, .error .nullifierAlreadyUsed) := by
  simp [validateSignal, hex, hn]

theorem validateSignal_ok (K : Keccak) {s : WhispState} {r : Nat}
    {p : SemaphoreProof} (hex : (s.groups r).«exists» = true)
    (hn : s.nullifierUsed r p.nullifier = false) (t : Nat) :
    validateSignal K s r p t true =
      ({ s with nullifierUsed := fun r0 n0 =>
          if r0 = r ∧ n0 = p.nullifier then true else s.nullifierUsed r0 n0 },
       .ok ([], [.signalSent r (s.groups r).groupId
          (K.hash p.message / 2 ^ 8) (K.hash p.scope / 2 ^ 8)
          p.nullifier (t % 2 ^ 64)])) := by
  simp [validateSignal, hex, hn]

theorem validateSignal_ok_inv {K : Keccak} {s : WhispState} {r t : Nat}
    {p : SemaphoreProof} {ok : Bool} {out : List Nat × List Event}
    (h : (validateSignal K s r p t ok).2 = .ok out) :
    (s.groups r).«exists» = true ∧ s.nullifierUsed r p.nullifier = false ∧
      ok = true := by
  by_cases hex : (s.groups r).«exists» = true
  · by_cases hn : s.nullifierUsed r p.nullifier = true
    · rw [validateSignal_reused K hex hn] at h; exact absurd h (by simp)
    · cases ok with
      | false => simp [validateSignal, hex, Bool.eq_false_iff.mpr hn] at h
      | true => exact ⟨hex, Bool.eq_false_iff.mpr hn, rfl⟩
  · rw [validateSignal_notFound K (Bool.eq_false_iff.mpr hex)] at h
    exact absurd h (by simp)

/-! ## The storage invariant of reachable states -/

/-- The storage invariant: a group record with `exists = true` is stored
exactly for the registry ids below the counter; beyond the counter the
record is still the zero value and no join marker is set. -/
def GoodState (s : WhispState) : Prop :=
  (∀ r, r < s.nextGroupIndex → (s.groups r).«exists» = true) ∧
  (∀ r, s.nextGroupIndex ≤ r →
    s.groups r = defaultGroupInfo ∧ ∀ a, s.hasJoined r a = false)

theorem reachable_good : ∀ s, Reachable s → GoodState s := by
  intro s h
  induction h with
  | init =>
      exact ⟨fun r hr => absurd hr (Nat.not_lt_zero r),
        fun r _ => ⟨rfl, fun a => rfl⟩⟩
  | step_create a nm d iu c t sr _ ih =>
      obtain ⟨ih1, ih2⟩ := ih
      rename_i s0 _
      cases sr with
      | none => exact ⟨ih1, ih2⟩
      | some gid =>
          simp only [createGroup]
          constructor
          · intro r hr
            by_cases hre : r = s0.nextGroupIndex
            · simp [hre]
            · have : r < s0.nextGroupIndex :=
                lt_of_le_of_ne (Nat.lt_succ_iff.mp hr) hre
              simpa [hre] using ih1 r this
          · intro r hr
            have hgt : s0.nextGroupIndex < r := hr
            have hne : r ≠ s0.nextGroupIndex := Nat.ne_of_gt hgt
            have := ih2 r (le_of_lt hgt)
            simpa [hne] using this
  | step_join r cm a t ok _ ih =>
      obtain ⟨ih1, ih2⟩ := ih
      rename_i s0 _
      by_cases hex : (s0.groups r).«exists» = true
      · by_cases hj : s0.hasJoined r a = true
        · rw [joinGroup_already hex hj]; exact ⟨ih1, ih2⟩
        · cases ok with
          | false =>
              have : joinGroup s0 r cm a t false = (s0, .error .upstreamFailure) := by
                simp [joinGroup, hex, Bool.eq_false_iff.mpr hj]
              rw [this]; exact ⟨ih1, ih2⟩
          | true =>
              rw [joinGroup_ok hex (Bool.eq_false_iff.mpr hj)]
              refine ⟨ih1, fun r0 hr0 => ⟨(ih2 r0 hr0).1, fun a0 => ?_⟩⟩
              have hne : r0 ≠ r := by
                intro hcontr
                have := (ih2 r0 hr0).1
                rw [hcontr] at this
                rw [this] at hex
                exact absurd hex (by simp [defaultGroupInfo])
              simpa [hne] using (ih2 r0 hr0).2 a0
      · rw [joinGroup_notFound (Bool.eq_false_iff.mpr hex)]; exact ⟨ih1, ih2⟩
  | step_validate K r p t ok _ ih =>
      obtain ⟨ih1, ih2⟩ := ih
      rename_i s0 _
      by_cases hex : (s0.groups r).«exists» = true
      · by_cases hn : s0.nullifierUsed r p.nullifier = true
        · rw [validateSignal_reused K hex hn]; exact ⟨ih1, ih2⟩
        · cases ok with
          | false =>
              have : validateSignal K s0 r p t false = (s0, .error .upstreamFailure) := by
                simp [validateSignal, hex, Bool.eq_false_iff.mpr hn]
              rw [this]; exact ⟨ih1, ih2⟩
          | true =>
              rw [validateSignal_ok K hex (Bool.eq_false_iff.mpr hn)]
              exact ⟨ih1, ih2⟩
      · rw [validateSignal_notFound K (Bool.eq_false_iff.mpr hex)]
        exact ⟨ih1, ih2⟩

/-! ## Concrete fixtures used to instantiate the theorems -/

/-- A concrete keccak oracle (constantly zero, trivially 256-bit). -/
def K0 : Keccak := ⟨fun _ => 0, fun _ => by positivity⟩

/-- A concrete proof bundle with nullifier 7. -/
def p1 : SemaphoreProof :=
  { merkleTreeDepth := 1, merkleTreeRoot := 2, nullifier := 7
    message := [104, 105], scope := [100], points := [] }

/-- The state after one successful `createGroup` (registry id 0, Semaphore
group id 5, creator 1). -/
def sOne : WhispState :=
  (createGroup initialState 1 "zk" "d" "" "General" 3 (some 5)).1

theorem reachable_sOne : Reachable sOne :=
  Reachable.step_create 1 "zk" "d" "" "General" 3 (some 5) Reachable.init

/-- `sOne` after a successful `validateSignal` for registry id 0 with
nullifier 7. -/
def sUsed : WhispState := (validateSignal K0 sOne 0 p1 4 true).1

theorem reachable_sUsed : Reachable sUsed :=
  Reachable.step_validate K0 0 p1 4 true reachable_sOne

/-! ## The claims -/

/-- C4: every failing execution of `joinGroup` or `validateSignal` —
including the case where the external Semaphore call itself reverts —
leaves the entire storage (group table, join markers, nullifier sets,
`nextGroupIndex`) exactly as it was before the call: no error path
performs any mutation before its failure point. -/
theorem C4_no_mutation_on_failure :
    (∀ s r cm a t ok e, (joinGroup s r cm a t ok).2 = Except.error e →
      (joinGroup s r cm a t ok).1 = s) ∧
    (∀ K s r p t ok e, (validateSignal K s r p t ok).2 = Except.error e →
      (validateSignal K s r p t ok).1 = s) := by
  constructor
  · intro s r cm a t ok e h
    by_cases hex : (s.groups r).«exists» = true
    · by_cases hj : s.hasJoined r a = true
      · rw [joinGroup_already hex hj]
      · cases ok with
        | false => simp [joinGroup, hex, Bool.eq_false_iff.mpr hj]
        | true =>
            rw [joinGroup_ok hex (Bool.eq_false_iff.mpr hj)] at h
            exact absurd h (by simp)
    · rw [joinGroup_notFound (Bool.eq_false_iff.mpr hex)]
  · intro K s r p t ok e h
    by_cases hex : (s.groups r).«exists» = true
    · by_cases hn : s.nullifierUsed r p.nullifier = true
      · rw [validateSignal_reused K hex hn]
      · cases ok with
        | false => simp [validateSignal, hex, Bool.eq_false_iff.mpr hn]
        | true =>
            rw [validateSignal_ok K hex (Bool.eq_false_iff.mpr hn)] at h
            exact absurd h (by simp)
    · rw [validateSignal_notFound K (Bool.eq_false_iff.mpr hex)]

theorem C4_no_mutation_on_failure_witness :
    (joinGroup initialState 0 1 2 3 true).1 = initialState ∧
    (validateSignal K0 sOne 0 p1 4 false).1 = sOne := by
  constructor
  · exact C4_no_mutation_on_failure.1 initialState 0 1 2 3 true
      WhispError.groupNotFound rfl
  · exact C4_no_mutation_on_failure.2 K0 sOne 0 p1 4 false
      WhispError.upstreamFailure rfl

/-- C6: for every reachable state and registry id with no record
(`r ≥ nextGroupIndex`), `getGroupInfo` does not fail (it is a total read):
it returns the default `GroupInfo` record, whose `exists` field is
`false`; no NotFound error exists on this path. -/
theorem C6_getGroupInfo_default :
    ∀ s, Reachable s → ∀ r, s.nextGroupIndex ≤ r →
      getGroupInfo s r = defaultGroupInfo ∧
      (getGroupInfo s r).«exists» = false := by
  intro s hs r hr
  have h := (reachable_good s hs).2 r hr
  refine ⟨h.1, ?_⟩
  rw [show getGroupInfo s r = s.groups r from rfl, h.1]
  rfl

theorem C6_getGroupInfo_default_witness :
    getGroupInfo sOne 5 = defaultGroupInfo ∧
    (getGroupInfo sOne 5).«exists» = false :=
  C6_getGroupInfo_default sOne reachable_sOne 5 (by decide)

/-! ## Frame lemmas: fields each entry point never touches -/

theorem joinGroup_frame (s : WhispState) (r cm a t : Nat) (ok : Bool) :
    (joinGroup s r cm a t ok).1.nextGroupIndex = s.nextGroupIndex ∧
    (joinGroup s r cm a t ok).1.groups = s.groups ∧
    (joinGroup s r cm a t ok).1.nullifierUsed = s.nullifierUsed := by
  by_cases hex : (s.groups r).«exists» = true
  · by_cases hj : s.hasJoined r a = true
    · rw [joinGroup_already hex hj]; exact ⟨rfl, rfl, rfl⟩
    · cases ok with
      | false =>
          simp [joinGroup, hex, Bool.eq_false_iff.mpr hj]
      | true =>
          rw [joinGroup_ok hex (Bool.eq_false_iff.mpr hj)]
          exact ⟨rfl, rfl, rfl⟩
  · rw [joinGroup_notFound (Bool.eq_false_iff.mpr hex)]; exact ⟨rfl, rfl, rfl⟩

theorem validateSignal_frame (K : Keccak) (s : WhispState) (r : Nat)
    (p : SemaphoreProof) (t : Nat) (ok : Bool) :
    (validateSignal K s r p t ok).1.nextGroupIndex = s.nextGroupIndex ∧
    (validateSignal K s r p t ok).1.groups = s.groups ∧
    (validateSignal K s r p t ok).1.hasJoined = s.hasJoined := by
  by_cases hex : (s.groups r).«exists» = true
  · by_cases hn : s.nullifierUsed r p.nullifier = true
    · rw [validateSignal_reused K hex hn]; exact ⟨rfl, rfl, rfl⟩
    · cases ok with
      | false =>
          simp [validateSignal, hex, Bool.eq_false_iff.mpr hn]
      | true =>
          rw [validateSignal_ok K hex (Bool.eq_false_iff.mpr hn)]
          exact ⟨rfl, rfl, rfl⟩
  · rw [validateSignal_notFound K (Bool.eq_false_iff.mpr hex)]
    exact ⟨rfl, rfl, rfl⟩

theorem createGroup_frame (s : WhispState) (a : Nat) (nm d iu c : String)
    (t : Nat) (sr : Option Nat) :
    (createGroup s a nm d iu c t sr).1.hasJoined = s.hasJoined ∧
    (createGroup s a nm d iu c t sr).1.nullifierUsed = s.nullifierUsed ∧
    ∀ r, r ≠ s.nextGroupIndex →
      (createGroup s a nm d iu c t sr).1.groups r = s.groups r := by
  cases sr with
  | none => exact ⟨rfl, rfl, fun r _ => rfl⟩
  | some gid =>
      refine ⟨rfl, rfl, fun r hr => ?_⟩
      simp [createGroup, hr]

/-- C2: along any sequence of calls from the initial state, `createGroup`
assigns exactly the registry ids `0, 1, 2, …` in order — a successful
create returns the current counter and bumps it by exactly one, a failed
create and every other entry point leave the counter unchanged — and at
every reachable state a record with `exists = true` is stored for `r` iff
`r < nextGroupIndex`. -/
theorem C2_registry_ids_dense :
    ∀ s, Reachable s →
      (∀ a nm d iu c t gid,
        (createGroup s a nm d iu c t (some gid)).1.nextGroupIndex =
          s.nextGroupIndex + 1 ∧
        ∀ rid out, (createGroup s a nm d iu c t (some gid)).2 =
            Except.ok (rid, out) → rid = s.nextGroupIndex) ∧
      (∀ a nm d iu c t,
        (createGroup s a nm d iu c t none).1.nextGroupIndex =
          s.nextGroupIndex) ∧
      (∀ r cm a t ok,
        (joinGroup s r cm a t ok).1.nextGroupIndex = s.nextGroupIndex) ∧
      (∀ K r p t ok,
        (validateSignal K s r p t ok).1.nextGroupIndex = s.nextGroupIndex) ∧
      (∀ r, (s.groups r).«exists» = true ↔ r < s.nextGroupIndex) := by
  intro s hs
  obtain ⟨ih1, ih2⟩ := reachable_good s hs
  refine ⟨?_, ?_, ?_, ?_, ?_⟩
  · intro a nm d iu c t gid
    constructor
    · rfl
    · intro rid out h
      simp only [createGroup] at h
      exact ((Prod.mk.injEq _ _ _ _).mp (Except.ok.inj h)).1.symm
  · intro a nm d iu c t; rfl
  · intro r cm a t ok; exact (joinGroup_frame s r cm a t ok).1
  · intro K r p t ok; exact (validateSignal_frame K s r p t ok).1
  · intro r
    constructor
    · intro hex
      by_contra hlt
      have := (ih2 r (Nat.le_of_not_lt hlt)).1
      rw [this] at hex
      exact absurd hex (by simp [defaultGroupInfo])
    · exact ih1 r

theorem C2_registry_ids_dense_witness :
    (createGroup initialState 1 "a" "b" "c" "d" 3 (some 5)).1.nextGroupIndex =
      0 + 1 ∧
    (sOne.nextGroupIndex = 1 ∧ ((sOne.groups 0).«exists» = true ↔ 0 < 1)) := by
  refine ⟨(C2_registry_ids_dense initialState Reachable.init).1 1 "a" "b" "c" "d" 3 5 |>.1, rfl, ?_⟩
  exact (C2_registry_ids_dense sOne reachable_sOne).2.2.2.2 0

/-! ## Monotonicity helpers: marks once set are never cleared -/

theorem createGroup_exists_mono (s : WhispState) (a : Nat) (nm d iu c : String)
    (t : Nat) (sr : Option Nat) {r : Nat}
    (hex : (s.groups r).«exists» = true) :
    ((createGroup s a nm d iu c t sr).1.groups r).«exists» = true := by
  cases sr with
  | none => exact hex
  | some gid =>
      by_cases hr : r = s.nextGroupIndex
      · simp [createGroup, hr]
      · simpa [createGroup, hr] using hex

theorem joinGroup_exists_mono (s : WhispState) (r2 cm b t : Nat) (ok : Bool)
    {r : Nat} (hex : (s.groups r).«exists» = true) :
    ((joinGroup s r2 cm b t ok).1.groups r).«exists» = true := by
  rw [congrFun (joinGroup_frame s r2 cm b t ok).2.1 r]; exact hex

theorem validateSignal_exists_mono (K : Keccak) (s : WhispState) (r2 : Nat)
    (p : SemaphoreProof) (t : Nat) (ok : Bool) {r : Nat}
    (hex : (s.groups r).«exists» = true) :
    ((validateSignal K s r2 p t ok).1.groups r).«exists» = true := by
  rw [congrFun (validateSignal_frame K s r2 p t ok).2.1 r]; exact hex

theorem validateSignal_nullifier_mono (K : Keccak) (s : WhispState) (r2 : Nat)
    (p : SemaphoreProof) (t : Nat) (ok : Bool) {r n : Nat}
    (h : s.nullifierUsed r n = true) :
    (validateSignal K s r2 p t ok).1.nullifierUsed r n = true := by
  by_cases hex : (s.groups r2).«exists» = true
  · by_cases hn : s.nullifierUsed r2 p.nullifier = true
    · rw [validateSignal_reused K hex hn]; exact h
    · cases ok with
      | false => simpa [validateSignal, hex, Bool.eq_false_iff.mpr hn] using h
      | true =>
          rw [validateSignal_ok K hex (Bool.eq_false_iff.mpr hn)]
          by_cases hc : r = r2 ∧ n = p.nullifier
          · simp [hc]
          · simpa [hc] using h
  · rw [validateSignal_notFound K (Bool.eq_false_iff.mpr hex)]; exact h

theorem joinGroup_hasJoined_mono (s : WhispState) (r2 cm b t : Nat) (ok : Bool)
    {r a : Nat} (h : s.hasJoined r a = true) :
    (joinGroup s r2 cm b t ok).1.hasJoined r a = true := by
  by_cases hex : (s.groups r2).«exists» = true
  · by_cases hj : s.hasJoined r2 b = true
    · rw [joinGroup_already hex hj]; exact h
    · cases ok with
      | false => simpa [joinGroup, hex, Bool.eq_false_iff.mpr hj] using h
      | true =>
          rw [joinGroup_ok hex (Bool.eq_false_iff.mpr hj)]
          by_cases hc : r = r2 ∧ a = b
          · simp [hc]
          · simpa [hc] using h
  · rw [joinGroup_notFound (Bool.eq_false_iff.mpr hex)]; exact h

/-- C3: `joinGroup` fails with NotFound (`"Group not found"`) when no
record exists for the registry id, and an account joins a group at most
once: a success marks the caller joined (with the record still existing),
that mark and the record persist across every operation, and whenever the
mark is set a further `joinGroup` by that caller — with any commitment,
and whatever the external `addMember` oracle would answer, so without the
external call being consulted — returns AlreadyJoined and leaves the
state unchanged (the earlier commitment is not updated or replaced). -/
theorem C3_join_once :
    (∀ s r cm a t ok, (s.groups r).«exists» = false →
      joinGroup s r cm a t ok = (s, Except.error WhispError.groupNotFound)) ∧
    (∀ s r cm a t ok, (s.groups r).«exists» = true → s.hasJoined r a = true →
      joinGroup s r cm a t ok = (s, Except.error WhispError.alreadyJoined)) ∧
    (∀ s r cm a t ok st out, joinGroup s r cm a t ok = (st, Except.ok out) →
      st.hasJoined r a = true ∧ (st.groups r).«exists» = true) ∧
    (∀ s r a, s.hasJoined r a = true → (s.groups r).«exists» = true →
      (∀ a2 nm d iu c t sr,
        (createGroup s a2 nm d iu c t sr).1.hasJoined r a = true ∧
        ((createGroup s a2 nm d iu c t sr).1.groups r).«exists» = true) ∧
      (∀ r2 cm b t ok,
        (joinGroup s r2 cm b t ok).1.hasJoined r a = true ∧
        ((joinGroup s r2 cm b t ok).1.groups r).«exists» = true) ∧
      (∀ K r2 p t ok,
        (validateSignal K s r2 p t ok).1.hasJoined r a = true ∧
        ((validateSignal K s r2 p t ok).1.groups r).«exists» = true)) := by
  refine ⟨?_, ?_, ?_, ?_⟩
  · intro s r cm a t ok hex
    exact joinGroup_notFound hex cm a t ok
  · intro s r cm a t ok hex hj
    exact joinGroup_already hex hj cm t ok
  · intro s r cm a t ok st out h
    have h2 : (joinGroup s r cm a t ok).2 = Except.ok out := by rw [h]
    obtain ⟨hex, hj, hok⟩ := joinGroup_ok_inv h2
    subst hok
    rw [joinGroup_ok hex hj] at h
    have hst := ((Prod.mk.injEq _ _ _ _).mp h).1
    rw [← hst]
    exact ⟨by simp, hex⟩
  · intro s r a hj hex
    refine ⟨fun a2 nm d iu c t sr => ?_, fun r2 cm b t ok => ?_,
      fun K r2 p t ok => ?_⟩
    · refine ⟨?_, createGroup_exists_mono s a2 nm d iu c t sr hex⟩
      rw [congrFun (congrFun (createGroup_frame s a2 nm d iu c t sr).1 r) a]
      exact hj
    · exact ⟨joinGroup_hasJoined_mono s r2 cm b t ok hj,
        joinGroup_exists_mono s r2 cm b t ok hex⟩
    · refine ⟨?_, validateSignal_exists_mono K s r2 p t ok hex⟩
      rw [congrFun (congrFun (validateSignal_frame K s r2 p t ok).2.2 r) a]
      exact hj

/-- The state after account 2 successfully joins group 0 of `sOne`. -/
def sJoined : WhispState := (joinGroup sOne 0 11 2 8 true).1

theorem C3_join_once_witness :
    joinGroup initialState 0 11 2 3 true =
      (initialState, Except.error WhispError.groupNotFound) ∧
    joinGroup sJoined 0 12 2 9 false =
      (sJoined, Except.error WhispError.alreadyJoined) := by
  constructor
  · exact C3_join_once.1 initialState 0 11 2 3 true rfl
  · have h := C3_join_once.2.2.1 sOne 0 11 2 8 true sJoined
      ([], [Event.memberJoined 0 5 2 11 8]) rfl
    exact C3_join_once.2.1 sJoined 0 12 2 9 false h.2 h.1

/-- C1: `validateSignal` accepts a nullifier at most once per registry id.
A success marks `(registryId, proof.nullifier)` used (with the record
still existing); that mark and the record persist across every operation
(the pair never returns to unseen); and whenever the mark is set, a
further `validateSignal` for that registry id with any proof carrying the
same nullifier — whatever the message, scope, keccak oracle and external
verifier outcome, so without the verifier being consulted — returns
NullifierReused and leaves the state unchanged. -/
theorem C1_nullifier_single_use :
    (∀ K s r p t ok st out, validateSignal K s r p t ok = (st, Except.ok out) →
      st.nullifierUsed r p.nullifier = true ∧ (st.groups r).«exists» = true) ∧
    (∀ K s r p t ok, s.nullifierUsed r p.nullifier = true →
      (s.groups r).«exists» = true →
      validateSignal K s r p t ok =
        (s, Except.error WhispError.nullifierAlreadyUsed)) ∧
    (∀ s r n, s.nullifierUsed r n = true → (s.groups r).«exists» = true →
      (∀ a nm d iu c t sr,
        (createGroup s a nm d iu c t sr).1.nullifierUsed r n = true ∧
        ((createGroup s a nm d iu c t sr).1.groups r).«exists» = true) ∧
      (∀ r2 cm b t ok,
        (joinGroup s r2 cm b t ok).1.nullifierUsed r n = true ∧
        ((joinGroup s r2 cm b t ok).1.groups r).«exists» = true) ∧
      (∀ K r2 p t ok,
        (validateSignal K s r2 p t ok).1.nullifierUsed r n = true ∧
        ((validateSignal K s r2 p t ok).1.groups r).«exists» = true)) := by
  refine ⟨?_, ?_, ?_⟩
  · intro K s r p t ok st out h
    have h2 : (validateSignal K s r p t ok).2 = Except.ok out := by rw [h]
    obtain ⟨hex, hn, hok⟩ := validateSignal_ok_inv h2
    subst hok
    rw [validateSignal_ok K hex hn] at h
    have hst := ((Prod.mk.injEq _ _ _ _).mp h).1
    rw [← hst]
    exact ⟨by simp, hex⟩
  · intro K s r p t ok hn hex
    exact validateSignal_reused K hex hn t ok
  · intro s r n hn hex
    refine ⟨fun a nm d iu c t sr => ?_, fun r2 cm b t ok => ?_,
      fun K r2 p t ok => ?_⟩
    · refine ⟨?_, createGroup_exists_mono s a nm d iu c t sr hex⟩
      rw [congrFun (congrFun (createGroup_frame s a nm d iu c t sr).2.1 r) n]
      exact hn
    · refine ⟨?_, joinGroup_exists_mono s r2 cm b t ok hex⟩
      rw [congrFun (congrFun (joinGroup_frame s r2 cm b t ok).2.2 r) n]
      exact hn
    · exact ⟨validateSignal_nullifier_mono K s r2 p t ok hn,
        validateSignal_exists_mono K s r2 p t ok hex⟩

/-- A proof bundle carrying the same nullifier 7 as `p1` but different
message and scope bytes. -/
def pAlt : SemaphoreProof :=
  { merkleTreeDepth := 1, merkleTreeRoot := 2, nullifier := 7
    message := [1, 2, 3], scope := [9, 9], points := [] }

theorem C1_nullifier_single_use_witness :
    validateSignal K0 sUsed 0 pAlt 12 false =
      (sUsed, Except.error WhispError.nullifierAlreadyUsed) ∧
    (joinGroup sUsed 0 21 3 13 true).1.nullifierUsed 0 7 = true := by
  have ha := C1_nullifier_single_use.1 K0 sOne 0 p1 4 true sUsed
    ([], [Event.signalSent 0 5 0 0 7 4]) rfl
  constructor
  · exact C1_nullifier_single_use.2.1 K0 sUsed 0 pAlt 12 false ha.1 ha.2
  · exact ((C1_nullifier_single_use.2.2 sUsed 0 7 ha.1 ha.2).2.1 0 21 3 13 true).1

/-- C7: nullifier uniqueness is scoped per registry id. A successful
`validateSignal` for `r1` leaves the record, join markers and nullifier
set of every other registry id `r2` unchanged, and if `r2` existed with
the submitted nullifier unused there, a subsequent `validateSignal` for
`r2` carrying the very same nullifier (with the external verifier
accepting) still succeeds; likewise a successful `joinGroup` for `r1`
leaves every other registry id's record, join markers and nullifier set
unchanged, and `createGroup` touches no join marker, no nullifier entry
and no group record other than the freshly assigned one. -/
theorem C7_cross_registry_independence :
    (∀ K s r1 p t ok st out,
      validateSignal K s r1 p t ok = (st, Except.ok out) →
      ∀ r2, r2 ≠ r1 →
        st.groups r2 = s.groups r2 ∧
        (∀ a, st.hasJoined r2 a = s.hasJoined r2 a) ∧
        (∀ n, st.nullifierUsed r2 n = s.nullifierUsed r2 n) ∧
        ((s.groups r2).«exists» = true →
          s.nullifierUsed r2 p.nullifier = false →
          ∀ K2 t2, ((validateSignal K2 st r2 p t2 true).2).isOk = true)) ∧
    (∀ s r1 cm a t ok st out,
      joinGroup s r1 cm a t ok = (st, Except.ok out) →
      ∀ r2, r2 ≠ r1 →
        st.groups r2 = s.groups r2 ∧
        (∀ b, st.hasJoined r2 b = s.hasJoined r2 b) ∧
        (∀ n, st.nullifierUsed r2 n = s.nullifierUsed r2 n)) ∧
    (∀ s a nm d iu c t sr,
      (createGroup s a nm d iu c t sr).1.hasJoined = s.hasJoined ∧
      (createGroup s a nm d iu c t sr).1.nullifierUsed = s.nullifierUsed ∧
      ∀ r, r ≠ s.nextGroupIndex →
        (createGroup s a nm d iu c t sr).1.groups r = s.groups r) := by
  refine ⟨?_, ?_, ?_⟩
  · intro K s r1 p t ok st out h r2 hne
    have h2 : (validateSignal K s r1 p t ok).2 = Except.ok out := by rw [h]
    obtain ⟨hex, hn, hok⟩ := validateSignal_ok_inv h2
    subst hok
    rw [validateSignal_ok K hex hn] at h
    have hst := ((Prod.mk.injEq _ _ _ _).mp h).1
    rw [← hst]
    refine ⟨rfl, fun a => rfl, fun n => by simp [hne], ?_⟩
    intro hex2 hn2 K2 t2
    rw [validateSignal_ok K2 (by simpa [hne] using hex2)
      (by simpa [hne] using hn2) t2]
    rfl
  · intro s r1 cm a t ok st out h r2 hne
    have h2 : (joinGroup s r1 cm a t ok).2 = Except.ok out := by rw [h]
    obtain ⟨hex, hj, hok⟩ := joinGroup_ok_inv h2
    subst hok
    rw [joinGroup_ok hex hj] at h
    have hst := ((Prod.mk.injEq _ _ _ _).mp h).1
    rw [← hst]
    exact ⟨rfl, fun b => by simp [hne], fun n => rfl⟩
  · intro s a nm d iu c t sr
    exact createGroup_frame s a nm d iu c t sr

/-- Two groups (registry ids 0 and 1), no nullifier used anywhere. -/
def sTwo : WhispState := (createGroup sOne 2 "g2" "d2" "" "Vote" 9 (some 6)).1

theorem C7_cross_registry_independence_witness :
    ((validateSignal K0 ((validateSignal K0 sTwo 0 p1 4 true).1) 1 p1 20
      true).2).isOk = true := by
  have h := C7_cross_registry_independence.1 K0 sTwo 0 p1 4 true
    (validateSignal K0 sTwo 0 p1 4 true).1
    ([], [Event.signalSent 0 5 0 0 7 4]) rfl 1 (by decide)
  exact h.2.2.2 rfl rfl K0 20

/-- C9: creating a group does not make its creator a member. After a
successful `createGroup` by account `a` returning registry id `rid`,
`isMember rid a` is `false`; it stays `false` under every `validateSignal`
and `createGroup` and under any `joinGroup` that is not by `a` for `rid`;
and it becomes `true` exactly after a successful `joinGroup` by `a` for
`rid`. -/
theorem C9_creator_not_member :
    ∀ s, Reachable s → ∀ a nm d iu c t gid st rid out,
      createGroup s a nm d iu c t (some gid) = (st, Except.ok (rid, out)) →
      isMember st rid a = false ∧
      (∀ cm t2 st2 out2, joinGroup st rid cm a t2 true = (st2, Except.ok out2) →
        isMember st2 rid a = true) ∧
      (∀ r2 cm b t2 ok, b ≠ a ∨ r2 ≠ rid →
        isMember ((joinGroup st r2 cm b t2 ok).1) rid a = isMember st rid a) ∧
      (∀ K r2 p t2 ok,
        isMember ((validateSignal K st r2 p t2 ok).1) rid a =
          isMember st rid a) ∧
      (∀ a2 nm2 d2 iu2 c2 t2 sr,
        isMember ((createGroup st a2 nm2 d2 iu2 c2 t2 sr).1) rid a =
          isMember st rid a) := by
  intro s hs a nm d iu c t gid st rid out h
  obtain ⟨_, ih2⟩ := reachable_good s hs
  simp only [createGroup] at h
  obtain ⟨hst, hrid, _⟩ : _ ∧ s.nextGroupIndex = rid ∧ _ :=
    ⟨((Prod.mk.injEq _ _ _ _).mp h).1,
      ((Prod.mk.injEq _ _ _ _).mp
        (Except.ok.inj ((Prod.mk.injEq _ _ _ _).mp h).2)).1,
      trivial⟩
  refine ⟨?_, ?_, ?_, ?_, ?_⟩
  · show st.hasJoined rid a = false
    rw [← hst]
    exact (ih2 rid (le_of_eq hrid)).2 a
  · intro cm t2 st2 out2 hj
    have hj2 : (joinGroup st rid cm a t2 true).2 = Except.ok out2 := by rw [hj]
    obtain ⟨hex, hjo, _⟩ := joinGroup_ok_inv hj2
    rw [joinGroup_ok hex hjo] at hj
    have hst2 := ((Prod.mk.injEq _ _ _ _).mp hj).1
    show st2.hasJoined rid a = true
    rw [← hst2]
    simp
  · intro r2 cm b t2 ok hor
    by_cases hex : (st.groups r2).«exists» = true
    · by_cases hj : st.hasJoined r2 b = true
      · rw [joinGroup_already hex hj]
      · cases ok with
        | false => simp [joinGroup, hex, Bool.eq_false_iff.mpr hj, isMember]
        | true =>
            rw [joinGroup_ok hex (Bool.eq_false_iff.mpr hj)]
            have hcond : ¬(rid = r2 ∧ a = b) := by
              rcases hor with hor | hor
              · exact fun hc => hor hc.2.symm
              · exact fun hc => hor hc.1.symm
            show (if rid = r2 ∧ a = b then true else st.hasJoined rid a) = _
            simp [hcond, isMember]
    · rw [joinGroup_notFound (Bool.eq_false_iff.mpr hex)]
  · intro K r2 p t2 ok
    show (validateSignal K st r2 p t2 ok).1.hasJoined rid a = st.hasJoined rid a
    rw [congrFun (congrFun (validateSignal_frame K st r2 p t2 ok).2.2 rid) a]
  · intro a2 nm2 d2 iu2 c2 t2 sr
    show (createGroup st a2 nm2 d2 iu2 c2 t2 sr).1.hasJoined rid a =
      st.hasJoined rid a
    rw [congrFun (congrFun (createGroup_frame st a2 nm2 d2 iu2 c2 t2 sr).1 rid) a]

theorem C9_creator_not_member_witness :
    isMember sOne 0 1 = false ∧
    isMember ((joinGroup sOne 0 31 1 6 true).1) 0 1 = true := by
  have h := C9_creator_not_member initialState Reachable.init 1 "zk" "d" ""
    "General" 3 5 sOne 0 [Event.groupCreated 0 5 1 "zk" "d" "" "General" 3] rfl
  exact ⟨h.1, h.2.1 31 6 (joinGroup sOne 0 31 1 6 true).1
    ([], [Event.memberJoined 0 5 1 31 6]) rfl⟩

/-- C5: the `signalHash` and `scopeHash` emitted by a successful
`validateSignal` are pure deterministic functions of the submitted message
and scope bytes: any two successful calls (in any states, for any registry
ids) whose proofs carry equal message bytes emit equal `signalHash`, and
likewise for scope bytes and `scopeHash`; each value is the keccak256
digest of those bytes shifted right by 8 bits (truncated to the proof
system's field width). -/
theorem C5_hash_deterministic :
    ∀ K s1 r1 q1 t1 ok1 st1 g1 sh1 sc1 n1 ts1
      s2 r2 q2 t2 ok2 st2 g2 sh2 sc2 n2 ts2,
      validateSignal K s1 r1 q1 t1 ok1 =
        (st1, Except.ok ([], [Event.signalSent r1 g1 sh1 sc1 n1 ts1])) →
      validateSignal K s2 r2 q2 t2 ok2 =
        (st2, Except.ok ([], [Event.signalSent r2 g2 sh2 sc2 n2 ts2])) →
      (q1.message = q2.message → sh1 = sh2) ∧
      (q1.scope = q2.scope → sc1 = sc2) ∧
      sh1 = K.hash q1.message / 2 ^ 8 ∧ sc1 = K.hash q1.scope / 2 ^ 8 := by
  intro K s1 r1 q1 t1 ok1 st1 g1 sh1 sc1 n1 ts1
    s2 r2 q2 t2 ok2 st2 g2 sh2 sc2 n2 ts2 h1 h2
  have e1 : (validateSignal K s1 r1 q1 t1 ok1).2 =
      Except.ok ([], [Event.signalSent r1 g1 sh1 sc1 n1 ts1]) := by rw [h1]
  have e2 : (validateSignal K s2 r2 q2 t2 ok2).2 =
      Except.ok ([], [Event.signalSent r2 g2 sh2 sc2 n2 ts2]) := by rw [h2]
  obtain ⟨hex1, hn1, hok1⟩ := validateSignal_ok_inv e1
  obtain ⟨hex2, hn2, hok2⟩ := validateSignal_ok_inv e2
  subst hok1; subst hok2
  rw [validateSignal_ok K hex1 hn1] at e1
  rw [validateSignal_ok K hex2 hn2] at e2
  simp only [Except.ok.injEq, Prod.mk.injEq, List.cons.injEq,
    Event.signalSent.injEq, and_true, true_and] at e1 e2
  obtain ⟨-, hsh1, hsc1, -, -⟩ := e1
  obtain ⟨-, hsh2, hsc2, -, -⟩ := e2
  refine ⟨fun hm => ?_, fun hs => ?_, hsh1.symm, hsc1.symm⟩
  · rw [← hsh1, ← hsh2, hm]
  · rw [← hsc1, ← hsc2, hs]

theorem C5_hash_deterministic_witness :
    (0 : Nat) = K0.hash p1.message / 2 ^ 8 ∧
    (0 : Nat) = K0.hash p1.scope / 2 ^ 8 := by
  have h := C5_hash_deterministic K0 sOne 0 p1 4 true sUsed 5 0 0 7 4
    sOne 0 p1 4 true sUsed 5 0 0 7 4 rfl rfl
  exact ⟨h.2.2.1, h.2.2.2⟩

/-- C10: every `signalHash` and `scopeHash` emitted by a successful
`validateSignal` is strictly below `2 ^ 248`: it is a 256-bit keccak256
digest shifted right by 8 bits, so its top 8 bits are zero. -/
theorem C10_hash_bounds :
    ∀ K s r p t ok st g sh sc n ts,
      validateSignal K s r p t ok =
        (st, Except.ok ([], [Event.signalSent r g sh sc n ts])) →
      sh < 2 ^ 248 ∧ sc < 2 ^ 248 := by
  intro K s r p t ok st g sh sc n ts h
  have e : (validateSignal K s r p t ok).2 =
      Except.ok ([], [Event.signalSent r g sh sc n ts]) := by rw [h]
  obtain ⟨hex, hn, hok⟩ := validateSignal_ok_inv e
  subst hok
  rw [validateSignal_ok K hex hn] at e
  simp only [Except.ok.injEq, Prod.mk.injEq, List.cons.injEq,
    Event.signalSent.injEq, and_true, true_and] at e
  obtain ⟨-, hsh, hsc, -, -⟩ := e
  have hb : ∀ bs : List Nat, K.hash bs / 2 ^ 8 < 2 ^ 248 := by
    intro bs
    rw [Nat.div_lt_iff_lt_mul (by positivity)]
    calc K.hash bs < 2 ^ 256 := K.hash_lt bs
      _ = 2 ^ 248 * 2 ^ 8 := by rw [← pow_add]
  exact ⟨hsh ▸ hb p.message, hsc ▸ hb p.scope⟩

theorem C10_hash_bounds_witness :
    K0.hash p1.message / 2 ^ 8 < 2 ^ 248 ∧
    K0.hash p1.scope / 2 ^ 8 < 2 ^ 248 :=
  C10_hash_bounds K0 sOne 0 p1 4 true sUsed 5
    (K0.hash p1.message / 2 ^ 8) (K0.hash p1.scope / 2 ^ 8) 7 4 rfl

/-- C8 (amended): every successful `validateSignal` emits exactly one
`SignalSent` notification, carrying the registry id, the external group
id, `signalHash`, `scopeHash`, the nullifier and the (64-bit truncated)
timestamp; the function itself returns no data to the caller (its
Solidity signature declares no return values), so the Signal is delivered
only through the notification. -/
theorem C8_signal_emission :
    ∀ K s r p t ok st ret evs,
      validateSignal K s r p t ok = (st, Except.ok (ret, evs)) →
      ret = [] ∧
      evs = [Event.signalSent r (s.groups r).groupId
        (K.hash p.message / 2 ^ 8) (K.hash p.scope / 2 ^ 8)
        p.nullifier (t % 2 ^ 64)] := by
  intro K s r p t ok st ret evs h
  have e : (validateSignal K s r p t ok).2 = Except.ok (ret, evs) := by rw [h]
  obtain ⟨hex, hn, hok⟩ := validateSignal_ok_inv e
  subst hok
  rw [validateSignal_ok K hex hn] at e
  simp only [Except.ok.injEq, Prod.mk.injEq] at e
  exact ⟨e.1.symm, e.2.symm⟩

theorem C8_signal_emission_witness :
    ([] : List Nat) = [] ∧
    [Event.signalSent 0 5 0 0 7 4] =
      [Event.signalSent 0 (sOne.groups 0).groupId
        (K0.hash p1.message / 2 ^ 8) (K0.hash p1.scope / 2 ^ 8)
        p1.nullifier (4 % 2 ^ 64)] :=
  C8_signal_emission K0 sOne 0 p1 4 true sUsed []
    [Event.signalSent 0 5 0 0 7 4] rfl

/-- C8 counterexample: the claim says a successful submit *returns a
Signal value to the caller* in addition to emitting the notification. At
a concrete successful call the function's return data (its declared
Solidity return values) is the empty list — it cannot carry the six
fields of a Signal — while the one `SignalSent` notification is emitted. -/
theorem C8_counterexample :
    (validateSignal K0 sOne 0 p1 4 true).2 =
      Except.ok (([] : List Nat), [Event.signalSent 0 5 0 0 7 4]) ∧
    ([] : List Nat).length ≠ 6 := ⟨rfl, by decide⟩
